import Mathlib

/-!
Verification development for the midboss state container
(src/lib/index.ts).  The file under src contains two evolutionary
variants of the library separated by a document marker; the claims cite
the first variant (lines 1-256) for the container operations and the
second variant's inline localStorage restore (lines 338-349) for the
persistence-restore contract.  Both are embedded below.

Two complementary shallow embeddings are used:

1. A value-level embedding: a state snapshot is a finite association
   list of fields (Obj), and every container operation is a pure Lean
   function returning the new container together with the ordered list
   of side effects it performs (persistence save, onSave hook call,
   synchronous or deferred publish).  At the value level the deep
   clone of lodash and the deep freeze are identities (they do not
   change the value of a snapshot); what they do to object identity and
   mutability is modelled by the second embedding.

2. A heap-level embedding: JavaScript objects live at addresses in an
   explicit heap, each object carrying its fields and a frozen flag.
   deepFreeze (lines 47-65), cloneDeep, property writes and the
   clone/freeze pipeline of tryCloneAndFreeze (lines 67-89) are
   modelled on this heap, which is what the aliasing and immutability
   claims are about.  Recursive heap walks take explicit fuel, since
   the heap may contain reference cycles.
-/

/-- A state snapshot at the value level: an association list from field
names to integer field values (the examples in the specification use
integer-valued fields such as count). -/
def Obj : Type := List (String × Int)

instance : DecidableEq Obj := by
  unfold Obj
  infer_instance

/-- Look a field up in a snapshot (first occurrence wins, as in a
JavaScript object, whose keys are unique). -/
def lookupKey : Obj → String → Option Int
  | [], _ => none
  | (k, v) :: rest, key => if k = key then some v else lookupKey rest key

/-- JavaScript property assignment target[k] = v: overwrite the field in
place if present, append it otherwise. -/
def setKey : Obj → String → Int → Obj
  | [], key, v => [(key, v)]
  | (k, w) :: rest, key, v =>
    if k = key then (key, v) :: rest else (k, w) :: setKey rest key v

/-- lodash assign(target, source): copy every field of source onto
target, in source order.  Used both for setState's shallow merge
(line 150 and line 154) and for the rehydration merge. -/
def assign (target source : Obj) : Obj :=
  source.foldl (fun t kv => setKey t kv.1 kv.2) target

/-- Value-level lodash cloneDeep: a deep copy has the same value as the
original; the fresh-identity aspect is modelled in the heap embedding. -/
def cloneDeepV (s : Obj) : Obj := s

/-- immer.produce(state, producer): the producer mutates a draft of the
current snapshot and the result becomes the next snapshot.  At the
value level a draft mutation is the function from the old snapshot
value to the new one.  Note index.ts line 12 calls
immer.setAutoFreeze(false), so producing does not freeze the result;
freezing is modelled in the heap embedding. -/
def immerProduce (s : Obj) (producer : Obj → Obj) : Obj := producer s

/-- Resolved container options (interface IMidbossOptions, lines 20-29).
The onSave hook is modelled by the flag hasOnSave (whether a hook was
supplied) plus an explicit effect carrying the snapshot it receives;
localStorageFields is the allow-list handed to the external
flavor-saver backend and does not influence the control flow embedded
here. -/
structure VOptions where
  useVerbose : Bool
  useFreeze : Bool
  useClone : Bool
  useLocalStorage : Bool
  useImmer : Bool
  hasOnSave : Bool
deriving DecidableEq

/-- The side effects a container operation can perform, in the order it
performs them: a persistence-slot write (saver.save, line 82), a call
of the onSave hook (line 85), a synchronous publish (line 160 or 192)
or a deferred publish (line 162 or 194). -/
inductive MbEffect where
  | save : Obj → MbEffect
  | onSaveCall : Obj → MbEffect
  | publishSync : String → MbEffect
  | publish : String → MbEffect
deriving DecidableEq

/-- The notification effect chosen by the sync flag (lines 159-163 and
191-195). -/
def pubEffect (key : String) (sync : Bool) : MbEffect :=
  if sync then MbEffect.publishSync key else MbEffect.publish key

/-- The persistence effects of tryCloneAndFreeze, lines 81-86: save to
the slot when useLocalStorage is set (the saver exists exactly when
useLocalStorage is set, lines 112-120), then call onSave when a hook
was supplied, both with the snapshot being returned. -/
def saveEffects (o : VOptions) (s : Obj) : List MbEffect :=
  (if o.useLocalStorage then [MbEffect.save s] else []) ++
    (if o.hasOnSave then [MbEffect.onSaveCall s] else [])

/-- Value level of tryFreeze (lines 91-96): freezing does not change the
value of the snapshot (see the heap embedding for what it does to
mutability), and tryFreeze performs no persistence effect. -/
def tryFreezeV (s : Obj) (o : VOptions) : Obj := s

/-- Value level of tryCloneAndFreeze (lines 67-89): optionally deep
clone, optionally deep freeze (both value-identities), then emit the
save and onSave effects with the resulting snapshot. -/
def tryCloneAndFreezeV (s : Obj) (o : VOptions) : Obj × List MbEffect :=
  let nextState := if o.useClone then cloneDeepV s else s
  (nextState, saveEffects o nextState)

/-- The container's own mutable cell: the closure variables state and
isRehydrated of createMidboss together with the construction-time
stateKey and resolved options. -/
structure MbContainer where
  stateKey : String
  opts : VOptions
  state : Obj
  isRehydrated : Bool
deriving DecidableEq

/-- Replace the stored snapshot (assignment to the closure variable
state). -/
def withState (c : MbContainer) (s : Obj) : MbContainer :=
  MbContainer.mk c.stateKey c.opts s c.isRehydrated

/-- Set the one-shot rehydration latch (assignment to isRehydrated). -/
def withRehydrated (c : MbContainer) (b : Bool) : MbContainer :=
  MbContainer.mk c.stateKey c.opts c.state b

/-- getState (lines 144-146): run the stored snapshot through
tryCloneAndFreeze and hand the result to the caller.  The stored state
is not reassigned; the persistence effects of tryCloneAndFreeze do
fire. -/
def getStateV (c : MbContainer) : Obj × List MbEffect :=
  tryCloneAndFreezeV c.state c.opts

/-- setState (lines 147-164): with useImmer, produce the next snapshot
by assigning the changes onto a draft (lines 149-152); otherwise
shallow-merge the changes onto a fresh object (line 154).  Either way
only tryFreeze runs - no save, no onSave - and then one publish effect
fires, synchronous or deferred per the sync flag (default false at the
call sites embedded here pass it explicitly). -/
def setStateV (c : MbContainer) (changes : Obj) (sync : Bool) :
    MbContainer × List MbEffect :=
  let s :=
    if c.opts.useImmer then
      tryFreezeV (immerProduce c.state (fun d => assign d changes)) c.opts
    else
      tryFreezeV (assign (assign [] c.state) changes) c.opts
  (withState c s, [pubEffect c.stateKey sync])

/-- produce (lines 182-196): with useImmer, replace the snapshot by the
immer production and tryFreeze it; without useImmer, deep-clone the
snapshot, let the producer mutate the clone and run it through
tryCloneAndFreeze - but the result is only bound to the local variable
nextState and never assigned back to the closure variable state, so
the container keeps its old snapshot (this is faithful to lines
186-190 of the source).  One publish effect fires at the end. -/
def produceV (c : MbContainer) (producer : Obj → Obj) (sync : Bool) :
    MbContainer × List MbEffect :=
  if c.opts.useImmer then
    (withState c (tryFreezeV (immerProduce c.state producer) c.opts),
      [pubEffect c.stateKey sync])
  else
    let nextState := cloneDeepV c.state
    let nextState2 := producer nextState
    let r := tryCloneAndFreezeV nextState2 c.opts
    (c, r.2 ++ [pubEffect c.stateKey sync])

/-- rehydrate (lines 168-176): if the latch is still down, apply the
changes through setState (with its default deferred notification) and
raise the latch; otherwise do nothing at all. -/
def rehydrateV (c : MbContainer) (changes : Obj) :
    MbContainer × List MbEffect :=
  if c.isRehydrated then (c, [])
  else
    let r := setStateV c changes false
    (withRehydrated r.1 true, r.2)

/-- setOptions (line 177): the body of the handle's setOptions is empty,
so the container - its options included - is returned unchanged and no
error is raised for any argument.  The argument is the Partial
IMidbossLiveOptions record, whose only field is useVerbose. -/
def setOptionsV (c : MbContainer) (liveOpts : Option Bool) : MbContainer := c

/-- The caller-supplied options object: each recognized boolean may be
present or absent (undefined).  hasOnSave records whether an onSave
hook was passed. -/
structure PartialVOptions where
  useVerbose : Option Bool
  useFreeze : Option Bool
  useClone : Option Bool
  useLocalStorage : Option Bool
  useImmer : Option Bool
  hasOnSave : Bool
deriving DecidableEq

/-- Option resolution of createMidboss, lines 104-110: lodash defaults
fills every absent field from the defaults object, which sets
useFreeze true, useClone false, useLocalStorage false, useImmer true.
useVerbose has no entry in the defaults object, so an absent
useVerbose stays undefined, which is falsy everywhere it is tested. -/
def resolveOptions (p : PartialVOptions) : VOptions :=
  VOptions.mk (p.useVerbose.getD false) (p.useFreeze.getD true)
    (p.useClone.getD false) (p.useLocalStorage.getD false)
    (p.useImmer.getD true) p.hasOnSave

/-- The empty options object: every field absent, no onSave hook. -/
def emptyOptions : PartialVOptions :=
  PartialVOptions.mk none none none none none false

/-- createMidboss (lines 98-224) after the restore phase: resolve the
options and produce the initial snapshot through tryCloneAndFreeze
(line 138), with the latch down.  The localStorage restore of the
initial state (lines 125-133, delegated to the external flavor-saver
backend) and the onRestore hook run before this point and are modelled
by the caller passing the already-restored initial state; the inline
restore of the second source variant is embedded separately as
restoreV2. -/
def createMidbossV (stateKey : String) (initialState : Obj)
    (p : PartialVOptions) : MbContainer × List MbEffect :=
  let o := resolveOptions p
  let r := tryCloneAndFreezeV initialState o
  (MbContainer.mk stateKey o r.1 false, r.2)

/-- The snapshot produced by one setState-style merge of changes onto a
prior snapshot s, per strategy: the draft assignment under useImmer
(lines 149-151), the fresh-object shallow merge otherwise (line 154). -/
def mergeResult (o : VOptions) (s changes : Obj) : Obj :=
  if o.useImmer then assign s changes else assign (assign [] s) changes

/-- The inline localStorage restore of the second source variant,
lines 338-349.  The backend is modelled as Option (Option String):
none when localStorage is undefined in the host, some none when the
slot is absent (getItem returns null; the empty string is likewise
falsy and skipped by the if (stored) test), some (some s) when the
slot holds s.  JSON.parse is a caller-supplied partial function; a
parse result of none models the thrown exception, which the source
catches and logs, leaving the initial state untouched.  On success the
parsed fields are merged onto the fallback with assign({}, fallback,
parsed). -/
def restoreV2 (useLocalStorage : Bool) (backend : Option (Option String))
    (parse : String → Option Obj) (fallback : Obj) : Obj :=
  if useLocalStorage then
    match backend with
    | none => fallback
    | some none => fallback
    | some (some stored) =>
      if stored = "" then fallback
      else
        match parse stored with
        | none => fallback
        | some parsed => assign (assign [] fallback) parsed
  else fallback

/-!
The heap-level embedding.  JavaScript objects are heap cells addressed
by natural numbers; a cell holds its named fields and its frozen flag.
A property value is either a primitive or a reference to another cell.
References may form cycles, so the recursive heap walks (deepFreeze,
cloneDeep) take explicit fuel and return none when the fuel runs out:
a walk that returns none for every fuel is one whose source-level
counterpart never terminates.
-/

/-- A heap address (a JavaScript object identity). -/
abbrev Addr := Nat

/-- A JavaScript property value: a primitive, or a reference to an
object.  The if (value) truthiness test of deepFreeze line 57 passes
for every reference and the typeof test of line 59 then selects
exactly the references, so primitives are never descended into. -/
inductive JVal where
  | prim : Int → JVal
  | ref : Addr → JVal
deriving DecidableEq

/-- A heap cell: the object's own property list and whether
Object.freeze has been applied to it. -/
structure JObj where
  fields : List (String × JVal)
  frozen : Bool
deriving DecidableEq

/-- The heap: an association list from addresses to cells (first
binding wins). -/
abbrev Heap := List (Addr × JObj)

/-- Look an address up in the heap. -/
def heapLookup (h : Heap) (a : Addr) : Option JObj :=
  match h with
  | [] => none
  | (b, o) :: rest => if b = a then some o else heapLookup rest a

/-- Overwrite the cell at an address; writing to an absent address
changes nothing (the embedding only ever writes to live addresses). -/
def heapSet (h : Heap) (a : Addr) (o : JObj) : Heap :=
  match h with
  | [] => []
  | (b, o') :: rest =>
    if b = a then (b, o) :: rest else (b, o') :: heapSet rest a o

/-- Object.freeze on one cell: set its frozen flag, keep its fields. -/
def freezeAt (h : Heap) (a : Addr) : Heap :=
  match heapLookup h a with
  | none => h
  | some o => heapSet h a (JObj.mk o.fields true)

/-- Update one property in a field list (overwrite in place, append if
absent), like setKey at the value level. -/
def setField : List (String × JVal) → String → JVal → List (String × JVal)
  | [], key, v => [(key, v)]
  | (k, w) :: rest, key, v =>
    if k = key then (key, v) :: rest else (k, w) :: setField rest key v

/-- A caller's property assignment obj[n] = v on the object at address
a: in non-strict mode it mutates the cell when the object is not
frozen and is a silent no-op when it is frozen. -/
def writeField (h : Heap) (a : Addr) (n : String) (v : JVal) : Heap :=
  match heapLookup h a with
  | none => h
  | some o => if o.frozen then h else heapSet h a (JObj.mk (setField o.fields n v) o.frozen)

/-- Field lookup inside one cell. -/
def lookupJ : List (String × JVal) → String → Option JVal
  | [], _ => none
  | (k, v) :: rest, key => if k = key then some v else lookupJ rest key

/-- A caller's property read obj[n] on the object at address a. -/
def readField (h : Heap) (a : Addr) (n : String) : Option JVal :=
  match heapLookup h a with
  | none => none
  | some o => lookupJ o.fields n

/-- Whether the cell at an address is frozen. -/
def frozenIn (h : Heap) (a : Addr) : Bool :=
  match heapLookup h a with
  | none => false
  | some o => o.frozen

/-- The for-of loop of deepFreeze lines 55-63, abstracted over the
recursive call go (the fuel-smaller deepFreeze): walk the property
list left to right and recurse into every reference value, threading
the heap; primitives fail the typeof object test and are skipped (and
falsy values fail the if (value) test - at most primitives and
references exist here, and only references reach the recursive call). -/
def freezeFields (go : Heap → Addr → Option Heap) :
    List (String × JVal) → Heap → Option Heap
  | [], h => some h
  | (_, JVal.prim _) :: rest, h => freezeFields go rest h
  | (_, JVal.ref b) :: rest, h =>
    match go h b with
    | none => none
    | some h2 => freezeFields go rest h2

/-- deepFreeze (lines 47-65) with explicit fuel.  hasFreeze models the
if (!Object.freeze) guard of line 48: when the runtime lacks
Object.freeze the object is returned untouched.  Otherwise every
reference-valued own property is frozen recursively (the write-back
object[name] = deepFreeze(value) of line 60 stores the same reference
it read, so the fields are unchanged by it) and finally the object
itself is frozen.  The source recursion has no cycle detection and no
depth bound; fuel exhaustion in the model corresponds to the source
recursing forever. -/
def deepFreezeFuel (hasFreeze : Bool) : Nat → Heap → Addr → Option Heap
  | 0, _, _ => none
  | Nat.succ fuel, h, a =>
    if hasFreeze then
      match heapLookup h a with
      | none => some h
      | some o =>
        match freezeFields (fun h2 b => deepFreezeFuel hasFreeze fuel h2 b) o.fields h with
        | none => none
        | some h2 => some (freezeAt h2 a)
    else some h

/-- The smallest address not yet used by the heap. -/
def freshAddr (h : Heap) : Addr :=
  (h.map Prod.fst).foldr max 0 + 1

/-- Clone every property value in a field list, abstracted over the
recursive object clone go; the remap argument carries the
already-cloned addresses so shared references and cycles clone to
shared references and cycles, as lodash cloneDeep does. -/
def cloneVals (go : Heap → List (Addr × Addr) → Addr → Option (Heap × List (Addr × Addr) × Addr)) :
    List (String × JVal) → Heap → List (Addr × Addr) →
    Option (Heap × List (Addr × Addr) × List (String × JVal))
  | [], h, remap => some (h, remap, [])
  | (n, JVal.prim v) :: rest, h, remap =>
    match cloneVals go rest h remap with
    | none => none
    | some (h2, remap2, fs) => some (h2, remap2, (n, JVal.prim v) :: fs)
  | (n, JVal.ref b) :: rest, h, remap =>
    match go h remap b with
    | none => none
    | some (h1, remap1, b2) =>
      match cloneVals go rest h1 remap1 with
      | none => none
      | some (h2, remap2, fs) => some (h2, remap2, (n, JVal.ref b2) :: fs)

/-- Association-list lookup for the clone remap. -/
def lookupA : List (Addr × Addr) → Addr → Option Addr
  | [], _ => none
  | (k, v) :: rest, key => if k = key then some v else lookupA rest key

/-- Heap-level lodash cloneDeep with explicit fuel: allocate a fresh
cell for each object not yet cloned, record it in the remap, clone the
fields, and return the address of the copy.  An already-remapped
address returns its existing copy. -/
def cloneDeepH : Nat → Heap → List (Addr × Addr) → Addr →
    Option (Heap × List (Addr × Addr) × Addr)
  | 0, _, _, _ => none
  | Nat.succ fuel, h, remap, a =>
    match lookupA remap a with
    | some a2 => some (h, remap, a2)
    | none =>
      match heapLookup h a with
      | none => none
      | some o =>
        let a2 := freshAddr h
        let h1 := (a2, JObj.mk [] false) :: h
        match cloneVals (fun hh rm b => cloneDeepH fuel hh rm b)
            o.fields h1 ((a, a2) :: remap) with
        | none => none
        | some (h2, remap2, fs) =>
          some (heapSet h2 a2 (JObj.mk fs false), remap2, a2)

/-- Heap level of tryCloneAndFreeze (lines 67-89): clone the snapshot
when useClone is set, deep-freeze the (possibly cloned) snapshot when
useFreeze is set, and return the reference handed to the caller -
which, without useClone, is the container's own state object.  The
modelled runtime provides Object.freeze, so hasFreeze is true.  The
persistence effects of lines 81-86 are modelled in the value-level
embedding (tryCloneAndFreezeV). -/
def tryCloneAndFreezeH (o : VOptions) (fuel : Nat) (h : Heap) (a : Addr) :
    Option (Heap × Addr) :=
  match (if o.useClone then
      (cloneDeepH fuel h [] a).map (fun r => (r.1, r.2.2))
    else some (h, a)) with
  | none => none
  | some (h1, a1) =>
    if o.useFreeze then
      match deepFreezeFuel true fuel h1 a1 with
      | none => none
      | some h2 => some (h2, a1)
    else some (h1, a1)

/-- Heap level of getState (lines 144-146): tryCloneAndFreeze on the
stored snapshot; the returned address is what the caller can read and
(attempt to) mutate. -/
def getStateH (o : VOptions) (fuel : Nat) (h : Heap) (a : Addr) :
    Option (Heap × Addr) :=
  tryCloneAndFreezeH o fuel h a

/-!
Concrete fixtures used by the counterexamples and failing-input
theorems below.
-/

/-- A container configuration with the default structural-sharing
strategy plus persistence and an onSave hook: useFreeze and useImmer
true, useClone false, useLocalStorage true, onSave supplied. -/
def oImmerSave : VOptions := VOptions.mk false true false true true true

/-- A container in configuration oImmerSave whose snapshot is the
specification's example state with count 1. -/
def cImmerSave : MbContainer := MbContainer.mk "k" oImmerSave [("count", 1)] false

/-- A clone-and-merge container configuration (useImmer false) with
persistence and an onSave hook. -/
def oCloneSave : VOptions := VOptions.mk false true false true false true

/-- A clone-and-merge container whose snapshot has count 1. -/
def cCloneSave : MbContainer := MbContainer.mk "k" oCloneSave [("count", 1)] false

/-- A clone-and-merge configuration with no persistence and no hook. -/
def oCloneNoSave : VOptions := VOptions.mk false true false false false false

/-- A clone-and-merge container (no persistence) with count 1. -/
def cClone1 : MbContainer := MbContainer.mk "k" oCloneNoSave [("count", 1)] false

/-- The specification's example edit function, draft.count += 5. -/
def addFive : Obj → Obj :=
  fun d => setKey d "count" ((lookupKey d "count").getD 0 + 5)

/-!
Claim theorems over the value-level embedding.
-/

/-- Claim C10: with every option field absent, createMidboss resolves
useVerbose to the falsy undefined, useFreeze to true, useClone to
false, useLocalStorage to false and useImmer to true, so the container
runs the structural-sharing strategy with deep-freezing and without
persistence or an onSave hook. -/
theorem createMidboss_default_options (key : String) (init : Obj) :
    (createMidbossV key init emptyOptions).1.opts =
      VOptions.mk false true false false true false := rfl

/-- Claim C9: setOptions has an empty body, so calling it with any
argument returns the container completely unchanged - options, state
and latch included - and no error is raised (the function is total). -/
theorem setOptions_noop (c : MbContainer) (liveOpts : Option Bool) :
    setOptionsV c liveOpts = c ∧ (setOptionsV c liveOpts).opts = c.opts := ⟨rfl, rfl⟩

/-- Claim C8: the inline restore of the second source variant returns
the fallback unchanged when the backend is absent (localStorage
undefined), when the slot is missing (getItem null, or the falsy empty
string), and when the stored content is unparseable (JSON.parse
throws, modelled by a parser that rejects its input); the failure is
swallowed by the try/catch, never propagated (the embedded restore is
a total function). -/
theorem restore_returns_fallback_on_failure (parse : String → Option Obj)
    (fallback : Obj) (s : String) :
    restoreV2 true none parse fallback = fallback ∧
    restoreV2 true (some none) parse fallback = fallback ∧
    restoreV2 true (some (some "")) parse fallback = fallback ∧
    restoreV2 true (some (some s)) (fun t => none) fallback = fallback := by
  refine ⟨rfl, rfl, rfl, ?_⟩
  simp [restoreV2]

/-- Claim C4: on a freshly constructed container the first rehydrate
applies its changes through setState (the mutation pipeline) - leaving
the state equal to the strategy's merge of the changes onto the
initial snapshot - and raises the latch; a second rehydrate with any
other changes returns the container unchanged and performs no effect,
so the state reflects only the first call's changes. -/
theorem rehydrate_applies_once (key : String) (init : Obj)
    (p : PartialVOptions) (a b : Obj) :
    rehydrateV (rehydrateV ((createMidbossV key init p).1) a).1 b =
      ((rehydrateV ((createMidbossV key init p).1) a).1, []) ∧
    (rehydrateV ((createMidbossV key init p).1) a).1.state =
      (setStateV ((createMidbossV key init p).1) a false).1.state ∧
    (rehydrateV ((createMidbossV key init p).1) a).1.state =
      mergeResult (resolveOptions p) init a ∧
    (rehydrateV ((createMidbossV key init p).1) a).1.isRehydrated = true := by
  refine ⟨rfl, rfl, ?_, rfl⟩
  simp [rehydrateV, setStateV, createMidbossV, tryCloneAndFreezeV, cloneDeepV,
    tryFreezeV, immerProduce, withState, withRehydrated, mergeResult]

/-- Claim C7, counterexample: with the clone-and-merge strategy
(useImmer false) on snapshot count 1, setState of count 6 stores
count 6, while produce of the edit function assigning count 6 onto the
draft leaves the stored snapshot at count 1 (produce never writes its
result back), so the two are not equivalent as the claim states. -/
theorem setState_ne_produce_on_clone_strategy :
    (setStateV cClone1 [("count", 6)] true).1.state = [("count", 6)] ∧
    (produceV cClone1 (fun d => assign d [("count", 6)]) true).1.state =
      [("count", 1)] := ⟨rfl, rfl⟩

/-- Claim C7 as amended: under the structural-sharing strategy
(useImmer true, any other options), setState(changes) stores exactly
the snapshot stored by produce(draft => assign(draft, changes)). -/
theorem setState_eq_produce_assign_under_immer (uv uf uc uls hos : Bool)
    (key : String) (s : Obj) (reh : Bool) (changes : Obj) (sync : Bool) :
    (setStateV (MbContainer.mk key (VOptions.mk uv uf uc uls true hos) s reh)
        changes sync).1.state =
    (produceV (MbContainer.mk key (VOptions.mk uv uf uc uls true hos) s reh)
        (fun d => assign d changes) sync).1.state := rfl

/-- Claim C1, counterexample: a setState on a container with
persistence and an onSave hook configured (structural-sharing
strategy, the default) produces a changed snapshot but emits only the
notification effect - neither the persistence save nor the onSave
hook is called during the write. -/
theorem setState_performs_no_save :
    (setStateV cImmerSave [("count", 2)] false).2 = [MbEffect.publish "k"] ∧
    (setStateV cImmerSave [("count", 2)] false).1.state = [("count", 2)] :=
  ⟨rfl, rfl⟩

/-- Claim C1 as amended: setState emits exactly one notification effect
and never a save or onSave; produce under the structural-sharing
strategy likewise emits only the notification; produce under the
clone-and-merge strategy emits the save and onSave effects, carrying
the snapshot built by the edit function, strictly before its
notification effect - and all effects happen inside the call. -/
theorem write_effect_traces (c : MbContainer) (changes : Obj)
    (producer : Obj → Obj) (sync : Bool) :
    (setStateV c changes sync).2 = [pubEffect c.stateKey sync] ∧
    (produceV c producer sync).2 =
      (if c.opts.useImmer then [] else saveEffects c.opts (producer c.state)) ++
        [pubEffect c.stateKey sync] := by
  constructor
  · rfl
  · cases hI : c.opts.useImmer <;>
      simp [produceV, hI, tryCloneAndFreezeV, cloneDeepV]

/-- Claim C5, counterexample: a getState on a container with
persistence and an onSave hook configured writes the snapshot to the
persistence slot and invokes the onSave hook, although the claim says
a read performs neither. -/
theorem getState_performs_save :
    (getStateV cImmerSave).2 =
      [MbEffect.save [("count", 1)], MbEffect.onSaveCall [("count", 1)]] := rfl

/-- Claim C5 as amended: getState returns the stored snapshot unchanged
in value (the clone and freeze passes do not alter it, and the stored
state is not reassigned), but because getState runs the full
tryCloneAndFreeze pipeline it also emits the save effect when
useLocalStorage is set and the onSave effect when a hook is supplied -
a read re-runs the persistence step rather than skipping it. -/
theorem getState_returns_state_with_save_effects (c : MbContainer) :
    getStateV c = (c.state, saveEffects c.opts c.state) := by
  simp [getStateV, tryCloneAndFreezeV, cloneDeepV]

/-- Claim C2: evaluation of the source at the failing input.  With the
clone-and-merge strategy (useImmer false), produce applies the edit
draft.count += 5 to a clone of the count-1 snapshot, persists the
resulting count-6 snapshot, calls onSave with it and publishes the
change notification - yet the container still holds count 1 and a
subsequent getState returns count 1, because lines 186-190 never
assign the produced snapshot back to state.  Under the default
structural-sharing strategy the same edit yields count 6 as the claim
(and the specification's worked example) states. -/
theorem produce_clone_strategy_loses_update :
    (produceV cCloneSave addFive true).1 = cCloneSave ∧
    (produceV cCloneSave addFive true).2 =
      [MbEffect.save [("count", 6)], MbEffect.onSaveCall [("count", 6)],
        MbEffect.publishSync "k"] ∧
    (getStateV (produceV cCloneSave addFive true).1).1 = [("count", 1)] ∧
    (getStateV (produceV (MbContainer.mk "k" (resolveOptions emptyOptions)
        [("count", 1)] false) addFive true).1).1 = [("count", 6)] := by
  refine ⟨rfl, ?_, rfl, ?_⟩ <;> decide

/-!
Claim theorems over the heap-level embedding.
-/

/-- A one-object heap holding the self-referential object
a = \x7b self: a \x7d built by a.self = a. -/
def cycHeap : Heap := [(0, JObj.mk [("self", JVal.ref 0)] false)]

/-- A one-object heap holding the unfrozen example object with
count 1. -/
def hOne : Heap := [(0, JObj.mk [("count", JVal.prim 1)] false)]

/-- The same object after Object.freeze. -/
def hOneF : Heap := [(0, JObj.mk [("count", JVal.prim 1)] true)]

/-- The structural-sharing configuration with deep-freeze disabled
explicitly: useImmer true, useFreeze false. -/
def oImmerOnly : VOptions := VOptions.mk false false false false true false

/-- The specification's example configuration: structural sharing with
deep-freezing, no persistence. -/
def oFreezeImmer : VOptions := VOptions.mk false true false false true false

/-- Claim C6: evaluation of the source at the failing input.  On the
self-referential object cycHeap, deepFreeze never terminates: no
amount of fuel lets the recursion of lines 55-63 complete, because the
object is its own property value and the code carries no
visited-reference set.  (The claim's required behaviour - detect
visited references and terminate - is what the code lacks.) -/
theorem deepFreeze_diverges_on_cycle (fuel : Nat) :
    deepFreezeFuel true fuel cycHeap 0 = none := by
  induction fuel with
  | zero => rfl
  | succ n ih =>
    simp only [cycHeap] at ih ⊢
    simp [deepFreezeFuel, heapLookup, freezeFields, ih]

/-- Claim C3, counterexample: a container built with useImmer true and
useFreeze false (the structural-sharing strategy is active, so the
claim applies) hands out its own unfrozen state object: getState
returns the stored address unchanged, a caller's write of count 2
through that reference succeeds, and the subsequent getState sees
count 2 instead of count 1.  This is possible because line 12 disables
immer's automatic freezing, so nothing re-freezes the snapshot when
useFreeze is off. -/
theorem getState_mutable_without_freeze :
    getStateH oImmerOnly 3 hOne 0 = some (hOne, 0) ∧
    readField hOne 0 "count" = some (JVal.prim 1) ∧
    writeField hOne 0 "count" (JVal.prim 2) =
      [(0, JObj.mk [("count", JVal.prim 2)] false)] ∧
    getStateH oImmerOnly 3 (writeField hOne 0 "count" (JVal.prim 2)) 0 =
      some ([(0, JObj.mk [("count", JVal.prim 2)] false)], 0) ∧
    readField (writeField hOne 0 "count" (JVal.prim 2)) 0 "count" =
      some (JVal.prim 2) := by
  refine ⟨rfl, rfl, rfl, rfl, rfl⟩

/-- Reachability in the heap: the addresses a caller can touch starting
from a reference it was handed - the address itself, and everything
reachable through a chain of reference-valued properties. -/
inductive Reach (h : Heap) : Addr → Addr → Prop where
  | refl (a : Addr) : Reach h a a
  | head (a b c : Addr) (o : JObj) (n : String) :
      heapLookup h a = some o → (n, JVal.ref b) ∈ o.fields →
      Reach h b c → Reach h a c

/-- How one heap evolves into another under freezing: every cell keeps
exactly its fields (so the object graph is unchanged), and a frozen
cell stays frozen. -/
def heapShape (h h2 : Heap) : Prop :=
  (∀ b, (heapLookup h2 b).map JObj.fields = (heapLookup h b).map JObj.fields) ∧
  (∀ b, frozenIn h b = true → frozenIn h2 b = true)

theorem heapShape_refl (h : Heap) : heapShape h h := ⟨fun _ => rfl, fun _ hb => hb⟩

theorem heapShape_trans (h1 h2 h3 : Heap) (g1 : heapShape h1 h2)
    (g2 : heapShape h2 h3) : heapShape h1 h3 :=
  ⟨fun b => (g2.1 b).trans (g1.1 b), fun b hb => g2.2 b (g1.2 b hb)⟩

theorem heapLookup_heapSet_same (h : Heap) (a : Addr) (o o0 : JObj)
    (hl : heapLookup h a = some o0) :
    heapLookup (heapSet h a o) a = some o := by
  induction h with
  | nil => simp [heapLookup] at hl
  | cons hd tl ih =>
    by_cases hba : hd.1 = a
    · simp [heapLookup, heapSet, hba]
    · simp [heapLookup, heapSet, hba] at hl ⊢
      exact ih hl

theorem heapLookup_heapSet_other (h : Heap) (a : Addr) (o : JObj) (b : Addr)
    (hne : b ≠ a) : heapLookup (heapSet h a o) b = heapLookup h b := by
  induction h with
  | nil => simp [heapSet]
  | cons hd tl ih =>
    by_cases hba : hd.1 = a
    · subst hba
      simp [heapLookup, heapSet, Ne.symm hne]
    · by_cases hbb : hd.1 = b <;>
        simp [heapLookup, heapSet, hba, hbb, hne, ih]

theorem freezeAt_shape (h : Heap) (a : Addr) : heapShape h (freezeAt h a) := by
  unfold freezeAt
  cases hl : heapLookup h a with
  | none => exact heapShape_refl h
  | some o =>
    constructor
    · intro b
      by_cases hba : b = a
      · subst hba
        rw [heapLookup_heapSet_same h b (JObj.mk o.fields true) o hl, hl]
        rfl
      · rw [heapLookup_heapSet_other h a (JObj.mk o.fields true) b hba]
    · intro b hb
      by_cases hba : b = a
      · subst hba
        unfold frozenIn
        rw [heapLookup_heapSet_same h b (JObj.mk o.fields true) o hl]
      · unfold frozenIn at hb ⊢
        rw [heapLookup_heapSet_other h a (JObj.mk o.fields true) b hba]
        exact hb

theorem freezeAt_frozen (h : Heap) (a : Addr) (o : JObj)
    (hl : heapLookup h a = some o) : frozenIn (freezeAt h a) a = true := by
  unfold freezeAt frozenIn
  rw [hl, heapLookup_heapSet_same h a (JObj.mk o.fields true) o hl]

theorem freezeFields_shape (go : Heap → Addr → Option Heap)
    (hgo : ∀ h b h2, go h b = some h2 → heapShape h h2) :
    ∀ (fs : List (String × JVal)) (h h2 : Heap),
      freezeFields go fs h = some h2 → heapShape h h2 := by
  intro fs
  induction fs with
  | nil =>
    intro h h2 he
    simp [freezeFields] at he
    subst he
    exact heapShape_refl h
  | cons hd rest ih =>
    intro h h2 he
    match hd with
    | (n, JVal.prim v) =>
      simp [freezeFields] at he
      exact ih h h2 he
    | (n, JVal.ref b) =>
      simp [freezeFields] at he
      cases hg : go h b with
      | none => rw [hg] at he; exact absurd he (by simp)
      | some h1 =>
        rw [hg] at he
        exact heapShape_trans h h1 h2 (hgo h b h1 hg) (ih h1 h2 he)

theorem freezeFields_mem (go : Heap → Addr → Option Heap)
    (hgo : ∀ h b h2, go h b = some h2 → heapShape h h2) :
    ∀ (fs : List (String × JVal)) (h h2 : Heap),
      freezeFields go fs h = some h2 →
      ∀ (n : String) (b : Addr), (n, JVal.ref b) ∈ fs →
      ∃ hb hb2, heapShape h hb ∧ go hb b = some hb2 ∧ heapShape hb2 h2 := by
  intro fs
  induction fs with
  | nil => intro h h2 _ n b hmem; exact absurd hmem (List.not_mem_nil _)
  | cons hd rest ih =>
    intro h h2 he n b hmem
    match hd with
    | (m, JVal.prim v) =>
      simp [freezeFields] at he
      rcases List.mem_cons.mp hmem with heq | htl
      · exact absurd heq (by simp)
      · exact ih h h2 he n b htl
    | (m, JVal.ref d) =>
      simp only [freezeFields] at he
      cases hg : go h d with
      | none => rw [hg] at he; exact absurd he (by simp)
      | some h1 =>
        rw [hg] at he
        rcases List.mem_cons.mp hmem with heq | htl
        · have hbd : b = d := by
            have := congrArg Prod.snd heq
            simpa using this
          subst hbd
          exact ⟨h, h1, heapShape_refl h, hg,
            freezeFields_shape go hgo rest h1 h2 he⟩
        · rcases ih h1 h2 he n b htl with ⟨hb, hb2, g1, g2, g3⟩
          exact ⟨hb, hb2, heapShape_trans h h1 hb (hgo h d h1 hg) g1, g2, g3⟩

theorem deepFreezeFuel_shape :
    ∀ (fuel : Nat) (h : Heap) (a : Addr) (h2 : Heap),
      deepFreezeFuel true fuel h a = some h2 → heapShape h h2 := by
  intro fuel
  induction fuel with
  | zero => intro h a h2 he; exact absurd he (by simp [deepFreezeFuel])
  | succ n ih =>
    intro h a h2 he
    cases hl : heapLookup h a with
    | none =>
      simp [deepFreezeFuel, hl] at he
      subst he
      exact heapShape_refl h
    | some o =>
      simp [deepFreezeFuel, hl] at he
      cases hff : freezeFields (fun h2 b => deepFreezeFuel true n h2 b) o.fields h with
      | none => simp [hff] at he
      | some hm =>
        simp only [hff] at he
        simp at he
        subst he
        exact heapShape_trans h hm (freezeAt hm a)
          (freezeFields_shape _ (fun hx b hx2 hg => ih hx b hx2 hg) o.fields h hm hff)
          (freezeAt_shape hm a)

theorem reach_transport (h h2 : Heap)
    (hf : ∀ b, (heapLookup h2 b).map JObj.fields = (heapLookup h b).map JObj.fields) :
    ∀ (a c : Addr), Reach h a c → Reach h2 a c := by
  intro a c hr
  induction hr with
  | refl a => exact Reach.refl a
  | head a b c o n hl hmem _ ih =>
    have hfa := hf a
    rw [hl] at hfa
    cases hl2 : heapLookup h2 a with
    | none => rw [hl2] at hfa; exact absurd hfa (by simp)
    | some o2 =>
      rw [hl2] at hfa
      simp at hfa
      exact Reach.head a b c o2 n hl2 (by rw [hfa]; exact hmem) ih

theorem isSome_transport (h h2 : Heap)
    (hf : ∀ b, (heapLookup h2 b).map JObj.fields = (heapLookup h b).map JObj.fields)
    (c : Addr) (hs : (heapLookup h c).isSome = true) :
    (heapLookup h2 c).isSome = true := by
  have hfc := hf c
  cases hl : heapLookup h c with
  | none => rw [hl] at hs; exact absurd hs (by simp)
  | some o =>
    rw [hl] at hfc
    cases hl2 : heapLookup h2 c with
    | none => rw [hl2] at hfc; exact absurd hfc (by simp)
    | some o2 => simp

theorem deepFreezeFuel_freezes_reachable :
    ∀ (fuel : Nat) (h : Heap) (a : Addr) (h2 : Heap),
      deepFreezeFuel true fuel h a = some h2 →
      ∀ c, Reach h a c → (heapLookup h c).isSome = true →
      frozenIn h2 c = true := by
  intro fuel
  induction fuel with
  | zero => intro h a h2 he; exact absurd he (by simp [deepFreezeFuel])
  | succ n ih =>
    intro h a h2 he c hr hc
    cases hl : heapLookup h a with
    | none =>
      cases hr with
      | refl => rw [hl] at hc; exact absurd hc (by simp)
      | head a0 b c0 o0 nm hla hmem hrb =>
        rw [hl] at hla; exact absurd hla (by simp)
    | some o =>
      simp [deepFreezeFuel, hl] at he
      cases hff : freezeFields (fun h2 b => deepFreezeFuel true n h2 b) o.fields h with
      | none => simp [hff] at he
      | some hm =>
        simp only [hff] at he
        simp at he
        subst he
        have hshape : heapShape h hm :=
          freezeFields_shape _ (fun hx b hx2 hg => deepFreezeFuel_shape n hx b hx2 hg)
            o.fields h hm hff
        cases hr with
        | refl =>
          have hma := hshape.1 a
          rw [hl] at hma
          cases hlm : heapLookup hm a with
          | none => rw [hlm] at hma; exact absurd hma (by simp)
          | some om => exact freezeAt_frozen hm a om hlm
        | head a0 b c0 o0 nm hla hmem hrb =>
          rw [hl] at hla
          injection hla with hoo
          rw [← hoo] at hmem
          rcases freezeFields_mem _ (fun hx b hx2 hg => deepFreezeFuel_shape n hx b hx2 hg)
              o.fields h hm hff nm b hmem with ⟨hb, hb2, g1, g2, g3⟩
          have hrb2 : Reach hb b c := reach_transport h hb g1.1 b c hrb
          have hcb : (heapLookup hb c).isSome = true := isSome_transport h hb g1.1 c hc
          have hfz : frozenIn hb2 c = true := ih hb b hb2 g2 c hrb2 hcb
          exact (freezeAt_shape hm a).2 c (g3.2 c hfz)

theorem writeField_frozen (h : Heap) (c : Addr) (n : String) (v : JVal)
    (hf : frozenIn h c = true) : writeField h c n v = h := by
  unfold frozenIn at hf
  unfold writeField
  cases hl : heapLookup h c with
  | none => rfl
  | some o =>
    rw [hl] at hf
    have hfz : o.frozen = true := hf
    simp [hfz]

theorem writeField_absent (h : Heap) (c : Addr) (n : String) (v : JVal)
    (hl : heapLookup h c = none) : writeField h c n v = h := by
  unfold writeField
  rw [hl]

/-- Claim C3 as amended: for a container with useFreeze enabled
(whatever the other options), the heap getState returns is one in
which every address the caller can reach from the returned reference
is deeply frozen, so any attempted property write through that
reference is a silent no-op and leaves the heap - and therefore the
value returned by every subsequent getState - unchanged.  (The
counterexample getState_mutable_without_freeze shows the claim's other
disjunct, structural sharing alone, does not suffice, because immer's
automatic freezing is disabled at line 12.) -/
theorem getState_immutable_with_freeze (o : VOptions) (hF : o.useFreeze = true)
    (fuel : Nat) (h : Heap) (a : Addr) (h2 : Heap) (a2 : Addr)
    (hg : getStateH o fuel h a = some (h2, a2)) :
    ∀ c, Reach h2 a2 c → ∀ (n : String) (v : JVal),
      writeField h2 c n v = h2 ∧
      getStateH o fuel (writeField h2 c n v) a2 = getStateH o fuel h2 a2 := by
  intro c hr n v
  have hw : writeField h2 c n v = h2 := by
    unfold getStateH tryCloneAndFreezeH at hg
    cases hcl : (if o.useClone then
        (cloneDeepH fuel h [] a).map (fun r => (r.1, r.2.2))
      else some (h, a)) with
    | none => simp [hcl] at hg
    | some p =>
      obtain ⟨h1, a1⟩ := p
      rw [hcl] at hg
      simp only [hF, if_true] at hg
      cases hdf : deepFreezeFuel true fuel h1 a1 with
      | none => simp [hdf] at hg
      | some hfz =>
        simp only [hdf] at hg
        simp at hg
        obtain ⟨hh2, ha2⟩ := hg
        rw [hh2, ha2] at hdf
        have hshape : heapShape h1 h2 := deepFreezeFuel_shape fuel h1 a2 h2 hdf
        by_cases hc : (heapLookup h2 c).isSome = true
        · have hfsymm : ∀ b, (heapLookup h1 b).map JObj.fields =
              (heapLookup h2 b).map JObj.fields := fun b => (hshape.1 b).symm
          have hr1 : Reach h1 a2 c := reach_transport h2 h1 hfsymm a2 c hr
          have hc1 : (heapLookup h1 c).isSome = true :=
            isSome_transport h2 h1 hfsymm c hc
          exact writeField_frozen h2 c n v
            (deepFreezeFuel_freezes_reachable fuel h1 a2 h2 hdf c hr1 hc1)
        · exact writeField_absent h2 c n v (Option.not_isSome_iff_eq_none.mp hc)
  exact ⟨hw, by rw [hw]⟩

/-- Witness for the amended Claim C3: on the concrete frozen example
heap produced by getState (structural sharing with useFreeze, count 1
at address 0), the attempted write of count 99 through the returned
reference is a no-op and the subsequent getState is unchanged. -/
theorem getState_immutable_with_freeze_witness :
    writeField hOneF 0 "count" (JVal.prim 99) = hOneF ∧
    getStateH oFreezeImmer 3 (writeField hOneF 0 "count" (JVal.prim 99)) 0 =
      getStateH oFreezeImmer 3 hOneF 0 :=
  getState_immutable_with_freeze oFreezeImmer rfl 3 hOne 0 hOneF 0 (by decide)
    0 (Reach.refl 0) "count" (JVal.prim 99)
